import Mathlib

/-!
Verification development for the Antigravity Trading options backtesting core.

Shallow embedding of the Python modules:
  * `engine/cost_model.py`   — tax schedules and the round-trip cost calculator,
  * `engine/options_backtester.py` — per-leg rule engine (`execute_leg`), the
    day-completeness check (`check_data_boundary`), the per-day step of
    `OptionsBacktester.run`, and the cached `DataLoader`,
  * `engine/strategy_sdk.py` — the day-scoped `StrategyContext` state machine,
  * `strategy/strategy_config.py` — leg and strategy configuration records.

Conventions of the embedding:
  * Python floats are modelled as `ℚ` (the arithmetic exercised by the
    specification is exact in both).
  * Calendar dates are modelled as `ℕ` in `yyyymmdd` form, which preserves
    the ordering used by the code (`date` comparisons, `>=` on schedule
    effective-from dates).
  * Minute timestamps within one trading day are modelled by the pair
    `(hour, minute)`; the code only ever compares hour/minute fields of
    same-day timestamps.
  * Python `None` becomes `Option.none`; `dict` lookups become association
    lists; pandas frames become `List Row` in row order.
-/

/-- One row of the per-day options candle frame (a pandas row in
`options_backtester.py` / `strategy_sdk.py`): minute timestamp (hour, minute),
OHLC, relative strike label `strike_rel`, option type `typ`
("CALL" / "PUT"), absolute strike, underlying spot and the India VIX reading
(`none` models a NaN that `dropna` would remove). -/
structure Row where
  hour : Nat
  minute : Nat
  open_ : ℚ
  high : ℚ
  low : ℚ
  close : ℚ
  strike_rel : String
  typ : String
  absolute_strike : ℚ
  spot_price : ℚ
  india_vix : Option ℚ
deriving Repr, DecidableEq

/-- Minute-of-day of a row; same-day pandas timestamp comparisons reduce to
comparisons of this value. -/
def Row.tmin (r : Row) : Nat := r.hour * 60 + r.minute

/-- Two-digit zero padding, as produced by `strftime` field formatting. -/
def pad2 (n : Nat) : String := if n < 10 then "0" ++ toString n else toString n

/-- Rendering of a candle time as `strftime("%H:%M")` does. -/
def fmtTime (h m : Nat) : String := pad2 h ++ ":" ++ pad2 m

/-- Stable insertion of a row into a list ordered by `tmin`. -/
def insertByT (r : Row) : List Row → List Row
  | [] => [r]
  | x :: xs => if r.tmin ≤ x.tmin then r :: x :: xs else x :: insertByT r xs

/-- Sorting of candle rows by timestamp, modelling
`sort_values("timestamp")`. -/
def sortByT : List Row → List Row
  | [] => []
  | x :: xs => insertByT x (sortByT xs)

/-! ## Cost model (`engine/cost_model.py`) -/

/-- One entry of `TAX_SCHEDULES`: the effective-from date (yyyymmdd) and the
named percentage rates. -/
structure TaxSchedule where
  effective_from : Nat
  stt_sell_pct : ℚ
  stt_buy_pct : ℚ
  exchange_charges_pct : ℚ
  sebi_fee_pct : ℚ
  gst_pct : ℚ
  stamp_duty_pct : ℚ
deriving Repr, DecidableEq

/-- The pre-Oct-2024 schedule (`TAX_SCHEDULES[0]`, effective 2020-01-01). -/
def schedule2020 : TaxSchedule :=
  { effective_from := 20200101
    stt_sell_pct := 0.0625
    stt_buy_pct := 0
    exchange_charges_pct := 0.0495
    sebi_fee_pct := 0.0001
    gst_pct := 18
    stamp_duty_pct := 0.003 }

/-- The post-Oct-2024 schedule (`TAX_SCHEDULES[1]`, effective 2024-10-01). -/
def schedule2024 : TaxSchedule :=
  { effective_from := 20241001
    stt_sell_pct := 0.1
    stt_buy_pct := 0.1
    exchange_charges_pct := 0.0495
    sebi_fee_pct := 0.0001
    gst_pct := 18
    stamp_duty_pct := 0.003 }

/-- The date-ordered tax rate table of `cost_model.py`. -/
def TAX_SCHEDULES : List TaxSchedule := [schedule2020, schedule2024]

/-- `get_tax_rates`: starts from `TAX_SCHEDULES[0]` and keeps the last
schedule whose `effective_from` is at most the trade date. -/
def get_tax_rates (trade_date : Nat) : TaxSchedule :=
  TAX_SCHEDULES.foldl
    (fun applicable s =>
      if s.effective_from ≤ trade_date then s else applicable)
    schedule2020

/-- Modelled from the spec: `select_schedule(date)` is "the last table entry
with effective-from ≤ date" — the reference selector the claim compares
`get_tax_rates` against. -/
def select_schedule (trade_date : Nat) : Option TaxSchedule :=
  (TAX_SCHEDULES.filter (fun s => s.effective_from ≤ trade_date)).getLast?

/-- `CostConfig`: user-adjustable cost parameters. -/
structure CostConfig where
  slippage_pts : ℚ := 0.5
  brokerage_per_order : ℚ := 20
  use_taxes : Bool := true
  custom_tax_rates : Option TaxSchedule := none
deriving Repr, DecidableEq

/-- The default `CostConfig()` of the source. -/
def defaultCostConfig : CostConfig := {}

/-- `TradeCost`: breakdown of costs for a single round-trip trade. -/
structure TradeCost where
  slippage : ℚ := 0
  brokerage : ℚ := 0
  stt : ℚ := 0
  exchange_charges : ℚ := 0
  sebi_fee : ℚ := 0
  gst : ℚ := 0
  stamp_duty : ℚ := 0
deriving Repr, DecidableEq

/-- The `total` property of `TradeCost`. -/
def TradeCost.total (c : TradeCost) : ℚ :=
  c.slippage + c.brokerage + c.stt + c.exchange_charges + c.sebi_fee +
    c.gst + c.stamp_duty

/-- `CostModel.calculate`: round-trip (entry + exit) cost for one trade.
`quantity` is the total quantity (lots × lot size), `num_legs` the number of
strategy legs. -/
def CostModel.calculate (config : CostConfig) (trade_date : Nat)
    (action : String) (premium : ℚ) (exit_premium : ℚ) (quantity : ℤ)
    (num_legs : ℕ) : TradeCost :=
  let slippage : ℚ := config.slippage_pts * (quantity : ℚ) * (num_legs : ℚ) * 2
  let num_orders : ℕ := num_legs * 2
  let brokerage : ℚ := config.brokerage_per_order * (num_orders : ℚ)
  if ¬ config.use_taxes then
    { slippage := slippage, brokerage := brokerage }
  else
    let rates := config.custom_tax_rates.getD (get_tax_rates trade_date)
    let entry_turnover : ℚ := premium * (quantity : ℚ) * (num_legs : ℚ)
    let exit_turnover : ℚ := exit_premium * (quantity : ℚ) * (num_legs : ℚ)
    let total_turnover : ℚ := entry_turnover + exit_turnover
    let stt : ℚ :=
      if action = "SELL" then
        entry_turnover * rates.stt_sell_pct / 100 +
          exit_turnover * rates.stt_buy_pct / 100
      else
        entry_turnover * rates.stt_buy_pct / 100 +
          exit_turnover * rates.stt_sell_pct / 100
    let exchange_charges : ℚ := total_turnover * rates.exchange_charges_pct / 100
    let sebi_fee : ℚ := total_turnover * rates.sebi_fee_pct / 100
    let gst_base : ℚ := brokerage + exchange_charges + sebi_fee
    let gst : ℚ := gst_base * rates.gst_pct / 100
    let buy_turnover : ℚ := if action = "BUY" then entry_turnover else exit_turnover
    let stamp_duty : ℚ := buy_turnover * rates.stamp_duty_pct / 100
    { slippage := slippage
      brokerage := brokerage
      stt := stt
      exchange_charges := exchange_charges
      sebi_fee := sebi_fee
      gst := gst
      stamp_duty := stamp_duty }

/-! ## Strategy configuration (`strategy/strategy_config.py`) -/

/-- `LegConfig`: one strategy leg. `sl_pct`/`target_pct` of `none` defer to
the strategy-level percentages. -/
structure LegConfig where
  action : String
  strike : String
  option_type : String
  lots : ℤ := 1
  sl_pct : Option ℚ := none
  target_pct : Option ℚ := none
deriving Repr, DecidableEq

/-- `StrategyConfig`: the fields exercised by the rule engine and the
day loop. The `"HH:MM"` time strings of the source are modelled by their
parsed `(hour, minute)` pairs. -/
structure StrategyConfig where
  legs : List LegConfig := []
  entry_time : Nat × Nat := (9, 20)
  exit_time : Nat × Nat := (15, 15)
  sl_pct : ℚ := 0
  sl_type : String := "hard"
  target_pct : ℚ := 0
  target_type : String := "hard"
  lot_size : ℤ := 25
  vix_min : Option ℚ := none
  vix_max : Option ℚ := none
  dte_min : Option ℤ := none
  dte_max : Option ℤ := none
deriving Repr, DecidableEq

/-! ## Per-leg rule engine (`execute_leg` in `options_backtester.py`) -/

/-- The stop price computed by `execute_leg` (and `LegConfig.sl_price`):
`entry × (1 + pct/100)` for a SELL leg, mirrored for a BUY leg; no stop when
the percentage is not positive. -/
def slPriceFor (action : String) (entry_price sl_pct : ℚ) : Option ℚ :=
  if 0 < sl_pct then
    if action = "SELL" then some (entry_price * (1 + sl_pct / 100))
    else some (entry_price * (1 - sl_pct / 100))
  else none

/-- The target price computed by `execute_leg`: `entry × (1 − pct/100)` for a
SELL leg, mirrored for a BUY leg; no target when the percentage is not
positive. -/
def targetPriceFor (action : String) (entry_price target_pct : ℚ) : Option ℚ :=
  if 0 < target_pct then
    if action = "SELL" then some (entry_price * (1 - target_pct / 100))
    else some (entry_price * (1 + target_pct / 100))
  else none

/-- Parameters of the forward exit scan of `execute_leg`. -/
structure ScanParams where
  action : String
  sl_price : Option ℚ
  target_price : Option ℚ
  sl_type : String
  target_type : String
  exit_h : Nat
  exit_m : Nat
deriving Repr, DecidableEq

/-- The stop-loss block of the per-candle checks (lines 607–631): hard mode
fires on the adverse extreme crossing the stop, close mode on the candle
close crossing it. Returns `(exit_price, exit_time, exit_reason)` on a
trigger. -/
def slCheck (p : ScanParams) (c : Row) : Option (ℚ × String × String) :=
  match p.sl_price with
  | none => none
  | some sl =>
    if p.action = "SELL" then
      if p.sl_type = "hard" ∧ sl ≤ c.high then
        some (sl, fmtTime c.hour c.minute, "sl_hard")
      else if p.sl_type = "close" ∧ sl ≤ c.close then
        some (c.close, fmtTime c.hour c.minute, "sl_close")
      else none
    else
      if p.sl_type = "hard" ∧ c.low ≤ sl then
        some (sl, fmtTime c.hour c.minute, "sl_hard")
      else if p.sl_type = "close" ∧ c.close ≤ sl then
        some (c.close, fmtTime c.hour c.minute, "sl_close")
      else none

/-- The target block of the per-candle checks (lines 633–658), the mirror of
`slCheck` with the opposite extreme and comparison direction. -/
def targetCheck (p : ScanParams) (c : Row) : Option (ℚ × String × String) :=
  match p.target_price with
  | none => none
  | some tp =>
    if p.action = "SELL" then
      if p.target_type = "hard" ∧ c.low ≤ tp then
        some (tp, fmtTime c.hour c.minute, "target_hard")
      else if p.target_type = "close" ∧ c.close ≤ tp then
        some (c.close, fmtTime c.hour c.minute, "target_close")
      else none
    else
      if p.target_type = "hard" ∧ tp ≤ c.high then
        some (tp, fmtTime c.hour c.minute, "target_hard")
      else if p.target_type = "close" ∧ tp ≤ c.close then
        some (c.close, fmtTime c.hour c.minute, "target_close")
      else none

/-- One iteration of the forward scan (lines 596–658): time exit first
(candle time at or after the exit time exits at the candle open), then the
stop block, then the target block; `none` means the scan continues. -/
def checkCandle (p : ScanParams) (c : Row) : Option (ℚ × String × String) :=
  if c.hour > p.exit_h ∨ (c.hour = p.exit_h ∧ p.exit_m ≤ c.minute) then
    some (c.open_, fmtTime c.hour c.minute, "time_exit")
  else
    match slCheck p c with
    | some r => some r
    | none => targetCheck p c

/-- The forward scan of `execute_leg` over the post-entry candles: the first
candle on which `checkCandle` fires decides the exit; if no candle fires the
defaults (entry price, configured exit-time string, reason `time_exit`)
stand. -/
def scanExit (p : ScanParams) (entry_price : ℚ) (default_exit_time : String) :
    List Row → ℚ × String × String
  | [] => (entry_price, default_exit_time, "time_exit")
  | c :: rest =>
    match checkCandle p c with
    | some r => r
    | none => scanExit p entry_price default_exit_time rest

/-- Gross P&L of one leg (lines 661–665): premium collected for a SELL,
premium gained for a BUY. -/
def grossPnl (action : String) (entry_price exit_price : ℚ) (quantity : ℤ) : ℚ :=
  if action = "SELL" then (entry_price - exit_price) * (quantity : ℚ)
  else (exit_price - entry_price) * (quantity : ℚ)

/-- `OptionTrade`: record of a single leg trade. -/
structure OptionTrade where
  trade_date : Nat
  leg_id : Nat
  action : String
  strike : String
  option_type : String
  absolute_strike : ℚ
  entry_time : String
  exit_time : String
  entry_price : ℚ
  exit_price : ℚ
  exit_reason : String
  quantity : ℤ
  gross_pnl : ℚ
  dte : ℤ
  spot_at_entry : ℚ
  vix_at_entry : ℚ
  cost : Option TradeCost := none
  net_pnl : ℚ := 0
  skipped : Bool := false
  skip_reason : String := ""
deriving Repr, DecidableEq

/-- `execute_leg`: runs a single leg for one day — strike/type filter and
sort, entry candle lookup at the configured entry time, stop/target price
computation, forward exit scan, and P&L/cost computation. -/
def execute_leg (day_data : List Row) (leg : LegConfig)
    (config : StrategyConfig) (trade_date : Nat) (dte : ℤ)
    (cost_config : CostConfig) : OptionTrade :=
  let entry_h := config.entry_time.1
  let entry_m := config.entry_time.2
  let exit_h := config.exit_time.1
  let exit_m := config.exit_time.2
  let leg_type := if leg.option_type = "CE" then "CALL" else "PUT"
  let strike_data := sortByT (day_data.filter
    (fun r => r.strike_rel = leg.strike ∧ r.typ = leg_type))
  if strike_data.isEmpty then
    { trade_date := trade_date, leg_id := 0, action := leg.action
      strike := leg.strike, option_type := leg.option_type
      absolute_strike := 0, entry_time := fmtTime entry_h entry_m
      exit_time := fmtTime exit_h exit_m, entry_price := 0, exit_price := 0
      exit_reason := "no_data", quantity := 0, gross_pnl := 0, dte := dte
      spot_at_entry := 0, vix_at_entry := 0, skipped := true
      skip_reason := "No data for this strike/type" }
  else
    let entry_candles := strike_data.filter
      (fun r => r.hour = entry_h ∧ r.minute = entry_m)
    match entry_candles.head? with
    | none =>
      { trade_date := trade_date, leg_id := 0, action := leg.action
        strike := leg.strike, option_type := leg.option_type
        absolute_strike := 0, entry_time := fmtTime entry_h entry_m
        exit_time := fmtTime exit_h exit_m, entry_price := 0, exit_price := 0
        exit_reason := "no_entry_candle", quantity := 0, gross_pnl := 0
        dte := dte, spot_at_entry := 0, vix_at_entry := 0, skipped := true
        skip_reason := "No candle at " ++ fmtTime entry_h entry_m }
    | some entry_row =>
      let entry_price := entry_row.open_
      let sl_pct := leg.sl_pct.getD config.sl_pct
      let target_pct := leg.target_pct.getD config.target_pct
      let p : ScanParams :=
        { action := leg.action
          sl_price := slPriceFor leg.action entry_price sl_pct
          target_price := targetPriceFor leg.action entry_price target_pct
          sl_type := config.sl_type
          target_type := config.target_type
          exit_h := exit_h
          exit_m := exit_m }
      let post_entry := strike_data.filter (fun r => entry_row.tmin < r.tmin)
      let scan := scanExit p entry_price (fmtTime exit_h exit_m) post_entry
      let quantity := leg.lots * config.lot_size
      let gross := grossPnl leg.action entry_price scan.1 quantity
      let trade_cost := CostModel.calculate cost_config trade_date leg.action
        entry_price scan.1 quantity 1
      { trade_date := trade_date
        leg_id := 0
        action := leg.action
        strike := leg.strike
        option_type := leg.option_type
        absolute_strike := entry_row.absolute_strike
        entry_time := fmtTime entry_h entry_m
        exit_time := scan.2.1
        entry_price := entry_price
        exit_price := scan.1
        exit_reason := scan.2.2
        quantity := quantity
        gross_pnl := gross
        dte := dte
        spot_at_entry := entry_row.spot_price
        vix_at_entry := (entry_row.india_vix).getD 0
        cost := some trade_cost
        net_pnl := gross - trade_cost.total }

/-! ## Day-completeness check and the per-day step of `OptionsBacktester.run` -/

/-- Python truthiness of an optional float, as used by the VIX filter
(`if config.vix_min and ...`): `None` and `0.0` are both falsy. -/
def truthyQ : Option ℚ → Bool
  | none => false
  | some v => v ≠ 0

/-- The entry→exit coverage loop of `check_data_boundary` (lines 499–511):
for each required strike, the strike's first row must be at or before the
entry time and its last row at or after the exit time. Returns the first
failure reason. -/
def coverageFailure (day_data : List Row) (entry_min exit_min : Nat) :
    List String → Option String
  | [] => none
  | s :: rest =>
    match day_data.filter (fun r => r.strike_rel = s) with
    | [] => some ("No data for strike " ++ s)
    | first :: more =>
      let lastRow := (first :: more).getLast (by simp)
      if first.tmin > entry_min ∨ lastRow.tmin < exit_min then
        some ("Strike " ++ s ++ " data does not cover the session")
      else coverageFailure day_data entry_min exit_min rest

/-- `check_data_boundary` (Rule G): every strike required by some leg must
appear in the day's data and cover entry→exit; returns `(is_valid, reason)`.
The Python set of required strikes is modelled by the deduplicated list of
leg strikes (set iteration order is abstracted; the claims only inspect the
`"Missing strikes"` reason text, which the model renders without the
`repr` braces of the Python set). -/
def check_data_boundary (day_data : List Row) (config : StrategyConfig) :
    Bool × String :=
  let required_strikes := (config.legs.map (fun l => l.strike)).dedup
  let available := day_data.map (fun r => r.strike_rel)
  let missing := required_strikes.filter (fun s => ¬ available.contains s)
  if missing ≠ [] then
    (false, "Missing strikes: " ++ String.intercalate ", " missing)
  else
    let entry_min := config.entry_time.1 * 60 + config.entry_time.2
    let exit_min := config.exit_time.1 * 60 + config.exit_time.2
    match coverageFailure day_data entry_min exit_min required_strikes with
    | some reason => (false, reason)
    | none => (true, "")

/-- A record appended to `result.skipped_days`. -/
structure SkipRecord where
  date : Nat
  reason : String
  leg : Option Nat := none
deriving Repr, DecidableEq

/-- The DTE filter of the run loop (lines 775–780): skip when `dte` is below
`dte_min` or above `dte_max`. -/
def dteFilterSkips (config : StrategyConfig) (dte : ℤ) : Bool :=
  (match config.dte_min with
   | some m => dte < m
   | none => false) ||
  (match config.dte_max with
   | some m => m < dte
   | none => false)

/-- The VIX filter of the run loop (lines 783–792): when either bound is set,
the first non-NaN VIX value of the day is compared against the (truthy)
bounds. -/
def vixFilterSkips (config : StrategyConfig) (day_data : List Row) : Bool :=
  if config.vix_min.isSome ∨ config.vix_max.isSome then
    match (day_data.filterMap (fun r => r.india_vix)).head? with
    | none => false
    | some avg_vix =>
      (truthyQ config.vix_min &&
        match config.vix_min with
        | some mn => avg_vix < mn
        | none => false) ||
      (truthyQ config.vix_max &&
        match config.vix_max with
        | some mx => mx < avg_vix
        | none => false)
  else false

/-- The per-leg loop of the run body (lines 802–815): each executed leg gets
`leg_id = i + 1`; a skipped leg contributes a skip record, any other leg a
trade. -/
def runLegs (day_data : List Row) (config : StrategyConfig) (trade_date : Nat)
    (dte : ℤ) (cost_config : CostConfig) :
    List OptionTrade × List SkipRecord :=
  (config.legs.enum).foldl
    (fun acc il =>
      let t0 := execute_leg day_data il.2 config trade_date dte cost_config
      let t := { t0 with leg_id := il.1 + 1 }
      if t.skipped then
        (acc.1, acc.2 ++ [{ date := trade_date, reason := t.skip_reason
                            leg := some (il.1 + 1) }])
      else
        (acc.1 ++ [t], acc.2))
    ([], [])

/-- The body of `OptionsBacktester.run` for one trading day (lines 764–817),
given the loaded day data and the externally computed DTE: an empty day and
a day rejected by the DTE or VIX filter are passed over silently; a day
failing `check_data_boundary` contributes a dated skip record; otherwise the
legs execute. Returns `(trades, skipped_days)` contributed by the day. -/
def process_day (day_data : List Row) (config : StrategyConfig)
    (trade_date : Nat) (dte : ℤ) (cost_config : CostConfig) :
    List OptionTrade × List SkipRecord :=
  if day_data.isEmpty then ([], [])
  else if dteFilterSkips config dte then ([], [])
  else if vixFilterSkips config day_data then ([], [])
  else
    match check_data_boundary day_data config with
    | (false, reason) => ([], [{ date := trade_date, reason := reason }])
    | (true, _) => runLegs day_data config trade_date dte cost_config

/-! ## Cached data loader (`DataLoader` in `options_backtester.py`)

The loader is modelled after `_build_index` has run (`_build_index` globs
file names only and is guarded by `_index_built`, so it never reads a data
file). The archive is an immutable map `fs` from file id to the parsed frame
(CSV parsing and the fixed IST timestamp conversion are deterministic, so
they are folded into `fs`). Rows carry the derived `date` column. -/

/-- A row of a cached source file: the derived `date` column (yyyymmdd), the
minute timestamp, and the remaining columns abstracted as a payload id. -/
structure DRow where
  date : Nat
  tmin : Nat
  payload : Nat
deriving Repr, DecidableEq

/-- First-match association-list lookup, modelling Python `dict` access. -/
def assocFind (k : Nat) : List (Nat × List DRow) → Option (List DRow)
  | [] => none
  | (k2, v) :: rest => if k2 = k then some v else assocFind k rest

/-- Stable insertion of a `DRow` into a list ordered by `tmin`. -/
def insertByTD (r : DRow) : List DRow → List DRow
  | [] => [r]
  | x :: xs => if r.tmin ≤ x.tmin then r :: x :: xs else x :: insertByTD r xs

/-- Sorting of day rows by timestamp (`sort_values("timestamp")`). -/
def sortByTD : List DRow → List DRow
  | [] => []
  | x :: xs => insertByTD x (sortByTD xs)

/-- The mutable state of `DataLoader`: the sorted file index
`(from, to, file-id)` and the two caches. -/
structure LoaderState where
  file_index : List (Nat × Nat × Nat)
  file_cache : List (Nat × List DRow) := []
  day_cache : List (Nat × List DRow) := []
deriving Repr, DecidableEq

/-- Result of a loader call: the returned frame, the state after the call,
and the list of source files actually read from disk during the call. -/
structure LoadOutcome where
  result : Option (List DRow)
  state : LoaderState
  files_read : List Nat
deriving Repr, DecidableEq

/-- `DataLoader._load_file`: return the cached frame, or read, convert and
cache the whole file on first touch. -/
def load_file (fs : Nat → List DRow) (st : LoaderState) (f : Nat) :
    List DRow × LoaderState × List Nat :=
  match assocFind f st.file_cache with
  | some df => (df, st, [])
  | none =>
    let df := fs f
    (df, { st with file_cache := st.file_cache ++ [(f, df)] }, [f])

/-- The covering-file loop of `load_day` (lines 438–447): for each index
entry covering the date, load the file, slice the date; a non-empty slice is
sorted, cached and returned, an empty one moves to the next entry. -/
def loadDayLoop (fs : Nat → List DRow) (trade_date : Nat) :
    LoaderState → List Nat → List (Nat × Nat × Nat) → LoadOutcome
  | st, reads, [] => { result := none, state := st, files_read := reads }
  | st, reads, (file_from, file_to, f) :: rest =>
    if file_from ≤ trade_date ∧ trade_date ≤ file_to then
      let dfr := load_file fs st f
      let day_df := (dfr.1.filter (fun r => r.date = trade_date))
      if day_df.isEmpty then
        loadDayLoop fs trade_date dfr.2.1 (reads ++ dfr.2.2) rest
      else
        let sorted := sortByTD day_df
        { result := some sorted
          state := { dfr.2.1 with
                     day_cache := dfr.2.1.day_cache ++ [(trade_date, sorted)] }
          files_read := reads ++ dfr.2.2 }
    else
      loadDayLoop fs trade_date st reads rest

/-- `DataLoader.load_day`: answer from the day cache when possible, otherwise
walk the file index. -/
def load_day (fs : Nat → List DRow) (st : LoaderState) (trade_date : Nat) :
    LoadOutcome :=
  match assocFind trade_date st.day_cache with
  | some df => { result := some df, state := st, files_read := [] }
  | none => loadDayLoop fs trade_date st [] st.file_index

/-- `DataLoader.clear_cache`: releases both caches. -/
def clear_cache (st : LoaderState) : LoaderState :=
  { st with file_cache := [], day_cache := [] }

/-! ## Strategy SDK (`engine/strategy_sdk.py`) -/

/-- `Position`: a single open or closed SDK position. -/
structure Position where
  id : Nat
  strike : String
  option_type : String
  action : String
  lots : ℤ
  quantity : ℤ
  entry_price : ℚ
  entry_time : String
  label : String := ""
  exit_price : ℚ := 0
  exit_time : String := ""
  exit_reason : String := ""
  is_open : Bool := true
  gross_pnl : ℚ := 0
  cost : Option TradeCost := none
  net_pnl : ℚ := 0
  current_price : ℚ := 0
deriving Repr, DecidableEq

/-- The `unrealized_pnl` property of `Position`: zero once closed, otherwise
the mark-to-market P&L of the direction. -/
def Position.unrealized_pnl (p : Position) : ℚ :=
  if ¬ p.is_open then 0
  else if p.action = "SELL" then
    (p.entry_price - p.current_price) * (p.quantity : ℚ)
  else
    (p.current_price - p.entry_price) * (p.quantity : ℚ)

/-- The state of a `StrategyContext`: the day-scoped inputs plus the mutable
position lists, id counter and log. -/
structure StrategyContext where
  day_data : List Row
  trade_date : Nat
  dte : ℤ
  lot_size : ℤ
  cost_config : CostConfig
  entry_time_str : Nat × Nat
  exit_time_str : Nat × Nat
  positions : List Position
  closed_positions : List Position
  next_id : Nat
  logs : List String
  spot : ℚ
  vix : ℚ
deriving Repr, DecidableEq

/-- `StrategyContext.__init__`: empty position lists, id counter at 1, spot
and VIX precomputed from the first candle of the day. -/
def mkContext (day_data : List Row) (trade_date : Nat) (dte : ℤ)
    (lot_size : ℤ) (cost_config : CostConfig)
    (entry_time_str exit_time_str : Nat × Nat) : StrategyContext :=
  { day_data := day_data
    trade_date := trade_date
    dte := dte
    lot_size := lot_size
    cost_config := cost_config
    entry_time_str := entry_time_str
    exit_time_str := exit_time_str
    positions := []
    closed_positions := []
    next_id := 1
    logs := []
    spot := (day_data.head?.map (fun r => r.spot_price)).getD 0
    vix := ((day_data.head?.bind (fun r => r.india_vix)).getD 0) }

/-- `StrategyContext.get_candles`: the day's rows for one strike and option
type, in timestamp order. -/
def StrategyContext.get_candles (ctx : StrategyContext)
    (strike option_type : String) : List Row :=
  let leg_type := if option_type = "CE" then "CALL" else "PUT"
  sortByT (ctx.day_data.filter
    (fun r => r.strike_rel = strike ∧ r.typ = leg_type))

/-- `StrategyContext.get_option_price_at`: the open price of the candle at an
exact time, `0` when absent. -/
def StrategyContext.get_option_price_at (ctx : StrategyContext)
    (strike option_type : String) (t : Nat × Nat) : ℚ :=
  match ((ctx.get_candles strike option_type).filter
      (fun r => r.hour = t.1 ∧ r.minute = t.2)).head? with
  | none => 0
  | some r => r.open_

/-- `StrategyContext.log`. -/
def StrategyContext.addLog (ctx : StrategyContext) (message : String) :
    StrategyContext :=
  { ctx with logs := ctx.logs ++ [toString ctx.trade_date ++ " " ++ message] }

/-- `StrategyContext.open_position`: resolve the entry price (explicit price,
or the open at `at_time`, defaulting to the configured entry time); a
non-positive price yields the sentinel `-1` and no new position; otherwise a
fresh id is assigned and an open position appended. -/
def StrategyContext.open_position (ctx : StrategyContext)
    (strike option_type action : String) (lots : ℤ) (label : String)
    (price? : Option ℚ) (at_time? : Option (Nat × Nat)) :
    StrategyContext × ℤ :=
  let at_time : Option (Nat × Nat) :=
    match price?, at_time? with
    | none, none => some ctx.entry_time_str
    | _, _ => at_time?
  let price : ℚ :=
    match price? with
    | some pr => pr
    | none => ctx.get_option_price_at strike option_type
        (at_time.getD ctx.entry_time_str)
  if price ≤ 0 then
    (ctx.addLog ("WARN: Cannot open " ++ action ++ " " ++ strike ++ " " ++
      option_type), -1)
  else
    let pid := ctx.next_id
    let pos : Position :=
      { id := pid
        strike := strike
        option_type := option_type
        action := action
        lots := lots
        quantity := lots * ctx.lot_size
        entry_price := price
        entry_time :=
          match at_time with
          | some t => fmtTime t.1 t.2
          | none => fmtTime ctx.entry_time_str.1 ctx.entry_time_str.2
        label := label
        current_price := price }
    ({ ctx with positions := ctx.positions ++ [pos], next_id := pid + 1 }, pid)

/-- The closed copy of a position produced inside
`StrategyContext.close_position` (lines 312–333): exit fields filled, gross
P&L by direction, cost from the cost model, net = gross − cost total. -/
def closePos (cost_config : CostConfig) (trade_date : Nat) (pos : Position)
    (price? : Option ℚ) (reason : String) (at_time? : Option String) :
    Position :=
  let exit_price := price?.getD pos.current_price
  let gross :=
    if pos.action = "SELL" then
      (pos.entry_price - exit_price) * (pos.quantity : ℚ)
    else
      (exit_price - pos.entry_price) * (pos.quantity : ℚ)
  let cost := CostModel.calculate cost_config trade_date pos.action
    pos.entry_price exit_price pos.quantity 1
  { pos with
    exit_price := exit_price
    exit_time := at_time?.getD ""
    exit_reason := reason
    is_open := false
    gross_pnl := gross
    cost := some cost
    net_pnl := gross - cost.total }

/-- The search-and-close loop of `close_position`: the first position in the
list with the requested id that is still open is closed and removed; the
closed copy is reported. -/
def closeInList (cost_config : CostConfig) (trade_date : Nat)
    (position_id : Nat) (price? : Option ℚ) (reason : String)
    (at_time? : Option String) :
    List Position → Option (List Position × Position)
  | [] => none
  | pos :: rest =>
    if pos.id = position_id ∧ pos.is_open then
      some (rest, closePos cost_config trade_date pos price? reason at_time?)
    else
      (closeInList cost_config trade_date position_id price? reason at_time?
        rest).map (fun lr => (pos :: lr.1, lr.2))

/-- `StrategyContext.close_position`: close by id; the closed copy moves from
`positions` to `closed_positions`; returns whether a position was found. -/
def StrategyContext.close_position (ctx : StrategyContext)
    (position_id : Nat) (price? : Option ℚ) (reason : String)
    (at_time? : Option String) : StrategyContext × Bool :=
  match closeInList ctx.cost_config ctx.trade_date position_id price? reason
      at_time? ctx.positions with
  | none => (ctx, false)
  | some lr =>
    ({ ctx with
       positions := lr.1
       closed_positions := ctx.closed_positions ++ [lr.2] }, true)

/-- `StrategyContext.close_all`: close every currently open id, looking up an
optional explicit price per id. -/
def StrategyContext.close_all (ctx : StrategyContext) (reason : String)
    (price_map : List (Nat × ℚ)) (at_time? : Option String) :
    StrategyContext :=
  let open_ids := (ctx.positions.filter (fun p => p.is_open)).map
    (fun p => p.id)
  open_ids.foldl
    (fun c pid =>
      let price := (price_map.find? (fun kv => kv.1 = pid)).map
        (fun kv => kv.2)
      (c.close_position pid price reason at_time?).1)
    ctx

/-- `StrategyContext.update_prices`: refresh the mark of every open position
from that time's candle close, leaving positions without a candle at that
time untouched. -/
def StrategyContext.update_prices (ctx : StrategyContext)
    (candle_time : Nat × Nat) : StrategyContext :=
  { ctx with
    positions := ctx.positions.map (fun pos =>
      if ¬ pos.is_open then pos
      else
        match ((ctx.get_candles pos.strike pos.option_type).filter
            (fun r => r.hour = candle_time.1 ∧ r.minute = candle_time.2)).head? with
        | none => pos
        | some r => { pos with current_price := r.close }) }

/-- `StrategyContext.get_realized_pnl`: the gross P&L of the closed
positions. -/
def StrategyContext.get_realized_pnl (ctx : StrategyContext) : ℚ :=
  (ctx.closed_positions.map (fun p => p.gross_pnl)).sum

/-- `StrategyContext.get_unrealized_pnl`: the mark-to-market P&L of the open
positions. -/
def StrategyContext.get_unrealized_pnl (ctx : StrategyContext) : ℚ :=
  ((ctx.positions.filter (fun p => p.is_open)).map
    (fun p => p.unrealized_pnl)).sum

/-- `StrategyContext.get_total_pnl`: the sum of the closed positions' gross
P&L and the open positions' mark-to-market P&L, as computed inline by the
source. -/
def StrategyContext.get_total_pnl (ctx : StrategyContext) : ℚ :=
  (ctx.closed_positions.map (fun p => p.gross_pnl)).sum +
    ((ctx.positions.filter (fun p => p.is_open)).map
      (fun p => p.unrealized_pnl)).sum

/-- `TradeRecord`: a completed trade folded into a day's result. -/
structure TradeRecord where
  trade_date : Nat
  strike : String
  option_type : String
  absolute_strike : ℚ
  action : String
  lots : ℤ
  quantity : ℤ
  entry_price : ℚ
  exit_price : ℚ
  entry_time : String
  exit_time : String
  exit_reason : String
  gross_pnl : ℚ
  net_pnl : ℚ
  dte : ℤ
  spot_at_entry : ℚ
  vix_at_entry : ℚ
  label : String := ""
  cost : Option TradeCost := none
deriving Repr, DecidableEq

/-- `DayResult`: one trading day's trades, P&L and logs. -/
structure DayResult where
  trade_date : Nat
  trades : List TradeRecord := []
  daily_pnl : ℚ := 0
  logs : List String := []
deriving Repr, DecidableEq

/-- The exit price chosen by `_force_close_open_positions` for one position
(lines 417–424): the open of the first candle of the strike/type series
whose HOUR is at least the exit hour, falling back to the position's last
mark when the series is empty or has no such candle. Note the comparison is
on the hour alone — the exit minute is not consulted. -/
def forceCloseExitPrice (ctx : StrategyContext) (pos : Position) : ℚ :=
  let exit_h := ctx.exit_time_str.1
  let candles := ctx.get_candles pos.strike pos.option_type
  if candles.isEmpty then pos.current_price
  else
    match (candles.filter (fun r => exit_h ≤ r.hour)).head? with
    | none => pos.current_price
    | some r => r.open_

/-- `StrategyContext._force_close_open_positions`: every position open in the
snapshot of `positions` is closed, at `forceCloseExitPrice`, with the given
reason and the configured exit time string. -/
def StrategyContext.force_close_open_positions (ctx : StrategyContext)
    (reason : String := "time_exit") : StrategyContext :=
  ctx.positions.foldl
    (fun c pos =>
      if pos.is_open then
        (c.close_position pos.id (some (forceCloseExitPrice c pos)) reason
          (some (fmtTime c.exit_time_str.1 c.exit_time_str.2))).1
      else c)
    ctx

/-- The `TradeRecord` built from a closed position by
`_collect_day_result`. -/
def recordOfPosition (ctx : StrategyContext) (pos : Position) : TradeRecord :=
  { trade_date := ctx.trade_date
    strike := pos.strike
    option_type := pos.option_type
    absolute_strike :=
      ((ctx.get_candles pos.strike pos.option_type).head?.map
        (fun r => r.absolute_strike)).getD 0
    action := pos.action
    lots := pos.lots
    quantity := pos.quantity
    entry_price := pos.entry_price
    exit_price := pos.exit_price
    entry_time := pos.entry_time
    exit_time := pos.exit_time
    exit_reason := pos.exit_reason
    gross_pnl := pos.gross_pnl
    net_pnl := pos.net_pnl
    dte := ctx.dte
    spot_at_entry := ctx.spot
    vix_at_entry := ctx.vix
    label := pos.label
    cost := pos.cost }

/-- `StrategyContext._collect_day_result`: force-close what is still open,
then fold every closed position into the day's trade list. The final context
is returned alongside, so that post-collection P&L queries can be stated. -/
def StrategyContext.collect_day_result (ctx : StrategyContext) :
    DayResult × StrategyContext :=
  let ctx2 := ctx.force_close_open_positions "time_exit"
  let trades := ctx2.closed_positions.map (recordOfPosition ctx2)
  ({ trade_date := ctx2.trade_date
     trades := trades
     daily_pnl := (trades.map (fun t => t.net_pnl)).sum
     logs := ctx2.logs }, ctx2)

/-- The states of a `StrategyContext` reachable from a freshly constructed
context by the public SDK operations (`open_position`, `close_position`,
`close_all`, `update_prices`). -/
inductive Reachable : StrategyContext → Prop
  | init (day_data : List Row) (trade_date : Nat) (dte : ℤ) (lot_size : ℤ)
      (cost_config : CostConfig) (entry_time_str exit_time_str : Nat × Nat) :
      Reachable (mkContext day_data trade_date dte lot_size cost_config
        entry_time_str exit_time_str)
  | openPos {s : StrategyContext} (strike option_type action : String)
      (lots : ℤ) (label : String) (price? : Option ℚ)
      (at_time? : Option (Nat × Nat)) :
      Reachable s →
      Reachable (s.open_position strike option_type action lots label price?
        at_time?).1
  | closePosStep {s : StrategyContext} (position_id : Nat)
      (price? : Option ℚ) (reason : String) (at_time? : Option String) :
      Reachable s →
      Reachable (s.close_position position_id price? reason at_time?).1
  | closeAllStep {s : StrategyContext} (reason : String)
      (price_map : List (Nat × ℚ)) (at_time? : Option String) :
      Reachable s →
      Reachable (s.close_all reason price_map at_time?)
  | updateStep {s : StrategyContext} (candle_time : Nat × Nat) :
      Reachable s →
      Reachable (s.update_prices candle_time)

/-! ## Concrete scenarios used by the theorems -/
/-- The spec's hard-stop example candle: high 130 at 10:00. -/
def candleC1hard : Row :=
  { hour := 10, minute := 0, open_ := 112, high := 130, low := 108
    close := 120, strike_rel := "ATM", typ := "CALL", absolute_strike := 0
    spot_price := 0, india_vix := none }

/-- The spec's close-stop example candle: close 126, high 124, at 10:05. -/
def candleC1close : Row :=
  { hour := 10, minute := 5, open_ := 118, high := 124, low := 110
    close := 126, strike_rel := "ATM", typ := "CALL", absolute_strike := 0
    spot_price := 0, india_vix := none }

/-- Scan parameters for the C2 witness: both a hard stop at 125 and a hard
target at 80 are armed. -/
def pC2 : ScanParams :=
  { action := "SELL", sl_price := some 125, target_price := some 80
    sl_type := "hard", target_type := "hard", exit_h := 15, exit_m := 15 }

/-- C2 witness candle at 15:20: open 90, high 200 (beyond the stop), low 70
(beyond the target). -/
def candleC2 : Row :=
  { hour := 15, minute := 20, open_ := 90, high := 200, low := 70
    close := 95, strike_rel := "ATM", typ := "CALL", absolute_strike := 0
    spot_price := 0, india_vix := none }

/-- The 09:20 entry candle of the C5 scenario: open 150. -/
def rowC5entry : Row :=
  { hour := 9, minute := 20, open_ := 150, high := 155, low := 148
    close := 152, strike_rel := "ATM", typ := "CALL"
    absolute_strike := 22500, spot_price := 22480, india_vix := some 12 }

/-- The 15:15 exit candle of the C5 scenario: open 100. -/
def rowC5exit : Row :=
  { hour := 15, minute := 15, open_ := 100, high := 104, low := 99
    close := 101, strike_rel := "ATM", typ := "CALL"
    absolute_strike := 22500, spot_price := 22510, india_vix := some 12 }

/-- The C5 day: the entry and the exit candle of the sold ATM call. -/
def dayC5 : List Row := [rowC5entry, rowC5exit]

/-- The C5 leg: sell one lot of the ATM call. -/
def legC5 : LegConfig := { action := "SELL", strike := "ATM", option_type := "CE" }

/-- The C5 strategy: one leg, no stop, no target, lot size 25, entry 09:20,
exit 15:15. -/
def cfgC5 : StrategyConfig := { legs := [legC5], lot_size := 25 }

/-- The trade produced by `execute_leg` on the C5 scenario. -/
def tradeC5 : OptionTrade :=
  execute_leg dayC5 legC5 cfgC5 20240615 3 defaultCostConfig


/-- Strategy configuration for C6: one leg on strike "ATM+5". -/
def cfgC6 : StrategyConfig :=
  { legs := [{ action := "SELL", strike := "ATM+5", option_type := "CE" }] }

/-- The single "ATM" row of the C6 witness day, with a VIX reading of 15. -/
def rowC6 : Row :=
  { hour := 9, minute := 20, open_ := 10, high := 11, low := 9, close := 10
    strike_rel := "ATM", typ := "CALL", absolute_strike := 0
    spot_price := 0, india_vix := some 15 }

/-- Strategy configuration for the C6 witness: one leg on strike "ATM+5",
with DTE and VIX day filters CONFIGURED (DTE within 1..10, VIX within
10..20) so that a DTE of 3 and a day VIX of 15 pass them. -/
def cfgC6b : StrategyConfig :=
  { legs := [{ action := "SELL", strike := "ATM+5", option_type := "CE" }]
    vix_min := some 10
    vix_max := some 20
    dte_min := some 1
    dte_max := some 10 }

/-- A reachable C7 witness state: a context on an empty day after opening a
SELL position at an explicit price 100 and closing it at 90. -/
def ctxC7 : StrategyContext :=
  (((mkContext [] 20240115 3 25 defaultCostConfig (9, 20)
      (15, 15)).open_position "ATM" "CE" "SELL" 1 "" (some 100)
      none).1.close_position 1 (some 90) "manual" none).1

/-- The 14:30 candle of the C8 day (open 45). -/
def rowC8pre : Row :=
  { hour := 14, minute := 30, open_ := 45, high := 46, low := 44, close := 45
    strike_rel := "ATM", typ := "CALL", absolute_strike := 0
    spot_price := 0, india_vix := none }

/-- The 15:05 candle of the C8 day (open 50) — before the 15:15 exit time
but in the exit HOUR. -/
def rowC8a : Row :=
  { hour := 15, minute := 5, open_ := 50, high := 52, low := 49, close := 51
    strike_rel := "ATM", typ := "CALL", absolute_strike := 0
    spot_price := 0, india_vix := none }

/-- The 15:20 candle of the C8 day (open 60) — the first candle at or after
the 15:15 exit time. -/
def rowC8b : Row :=
  { hour := 15, minute := 20, open_ := 60, high := 62, low := 59, close := 61
    strike_rel := "ATM", typ := "CALL", absolute_strike := 0
    spot_price := 0, india_vix := none }

/-- The C8 context: exit time 15:15, one open SELL position on the ATM call,
day candles at 14:30, 15:05 and 15:20. -/
def ctxC8 : StrategyContext :=
  ((mkContext [rowC8pre, rowC8a, rowC8b] 20240115 3 25 defaultCostConfig
      (9, 20) (15, 15)).open_position "ATM" "CE" "SELL" 1 "" (some 40)
      none).1

/-- Cost total carried by a closed position (zero when no cost was
attached). -/
def posCostTotal (p : Position) : ℚ :=
  match p.cost with
  | some c => c.total
  | none => 0

/-- Cost total carried by a trade record. -/
def tradeCostTotal (t : TradeRecord) : ℚ :=
  match t.cost with
  | some c => c.total
  | none => 0

/-- Every position of the context's open list is flagged open. -/
def OpenOK (l : List Position) : Prop := ∀ p ∈ l, p.is_open = true

/-- Every closed position carries a cost record, and its net P&L is its
gross P&L minus that cost's total — the accounting `close_position`
performs. -/
def ClosedOK (l : List Position) : Prop :=
  ∀ p ∈ l, ∃ c, p.cost = some c ∧ p.net_pnl = p.gross_pnl - c.total

/-- A reachable C10 state: a SELL position opened at explicit price 100 and
closed at 90 under the default cost configuration. -/
def ctxC10 : StrategyContext :=
  (((mkContext [] 20240610 2 25 defaultCostConfig (9, 20)
      (15, 15)).open_position "ATM" "PE" "SELL" 1 "" (some 100)
      none).1.close_position 1 (some 90) "manual" none).1

/-- A two-day archive file for the C9 witness. -/
def fsC9 : Nat → List DRow :=
  fun _ => [{ date := 20240102, tmin := 555, payload := 1 },
            { date := 20240103, tmin := 556, payload := 2 }]

/-- A loader state for the C9 witness whose index holds one covering
file. -/
def stC9 : LoaderState := { file_index := [(20240101, 20240131, 7)] }

/-! ## Theorems -/

/-- A candle strictly before the exit time never fires the time-exit check,
so `checkCandle` reduces to the stop/target blocks. -/
lemma checkCandle_not_time (p : ScanParams) (c : Row)
    (hc : c.hour < p.exit_h ∨ (c.hour = p.exit_h ∧ c.minute < p.exit_m)) :
    checkCandle p c =
      match slCheck p c with
      | some r => some r
      | none => targetCheck p c := by
  unfold checkCandle
  rw [if_neg]
  omega

/-- Candles on which no check fires are skipped by the forward scan. -/
lemma scanExit_append_none (p : ScanParams) (e : ℚ) (dflt : String)
    (pre rest : List Row) (h : ∀ d ∈ pre, checkCandle p d = none) :
    scanExit p e dflt (pre ++ rest) = scanExit p e dflt rest := by
  induction pre with
  | nil => rfl
  | cons d ds ih =>
    have hd : checkCandle p d = none := h d (List.mem_cons_self d ds)
    simp only [List.cons_append, scanExit, hd]
    exact ih (fun x hx => h x (List.mem_cons_of_mem d hx))

/-- With no target configured, a pre-exit-time candle whose adverse extreme
(resp. close) stays on the safe side of the stop fires nothing. -/
lemma checkCandle_none_of_safe (action sl_ty : String) (sl : ℚ) (eh em : Nat)
    (d : Row)
    (ht : d.hour < eh ∨ (d.hour = eh ∧ d.minute < em))
    (hsafe : (action = "SELL" → (sl_ty = "hard" → d.high < sl) ∧
                (sl_ty = "close" → d.close < sl)) ∧
             (action ≠ "SELL" → (sl_ty = "hard" → sl < d.low) ∧
                (sl_ty = "close" → sl < d.close))) :
    checkCandle ⟨action, some sl, none, sl_ty, sl_ty, eh, em⟩ d = none := by
  rw [checkCandle_not_time _ _ ht]
  by_cases ha : action = "SELL"
  · have h2 := hsafe.1 ha
    by_cases h : sl_ty = "hard"
    · have := h2.1 h
      simp [slCheck, targetCheck, ha, h, not_le.mpr this]
    · by_cases h3 : sl_ty = "close"
      · have := h2.2 h3
        simp [slCheck, targetCheck, ha, h, h3, not_le.mpr this]
      · simp [slCheck, targetCheck, ha, h, h3]
  · have h2 := hsafe.2 ha
    by_cases h : sl_ty = "hard"
    · have := h2.1 h
      simp [slCheck, targetCheck, ha, h, not_le.mpr this]
    · by_cases h3 : sl_ty = "close"
      · have := h2.2 h3
        simp [slCheck, targetCheck, ha, h, h3, not_le.mpr this]
      · simp [slCheck, targetCheck, ha, h, h3]

/-- C1: stop-loss exit pricing in `execute_leg`. For a stop percentage
`s > 0` the SELL stop price is `entry × (1 + s/100)` (BUY mirrored). In the
forward scan with a stop and no target: in hard mode, the first post-entry
candle before the exit time whose high reaches the stop exits at exactly the
stop price with reason `sl_hard`; in close mode, the first candle whose
close reaches the stop exits at that close with reason `sl_close`,
regardless of its high; BUY legs mirror both with the low and the opposite
comparison. -/
theorem c1_stop_loss_exit_pricing :
    (∀ entry_price sl_pct : ℚ, 0 < sl_pct →
      slPriceFor "SELL" entry_price sl_pct
          = some (entry_price * (1 + sl_pct / 100)) ∧
      slPriceFor "BUY" entry_price sl_pct
          = some (entry_price * (1 - sl_pct / 100))) ∧
    (∀ (e sl : ℚ) (eh em : Nat) (dflt : String) (pre : List Row) (c : Row)
        (rest : List Row),
      (∀ d ∈ pre, (d.hour < eh ∨ (d.hour = eh ∧ d.minute < em)) ∧
        d.high < sl) →
      (c.hour < eh ∨ (c.hour = eh ∧ c.minute < em)) →
      sl ≤ c.high →
      scanExit { action := "SELL", sl_price := some sl, target_price := none
                 sl_type := "hard", target_type := "hard", exit_h := eh
                 exit_m := em } e dflt (pre ++ c :: rest)
        = (sl, fmtTime c.hour c.minute, "sl_hard")) ∧
    (∀ (e sl : ℚ) (eh em : Nat) (dflt : String) (pre : List Row) (c : Row)
        (rest : List Row),
      (∀ d ∈ pre, (d.hour < eh ∨ (d.hour = eh ∧ d.minute < em)) ∧
        d.close < sl) →
      (c.hour < eh ∨ (c.hour = eh ∧ c.minute < em)) →
      sl ≤ c.close →
      scanExit { action := "SELL", sl_price := some sl, target_price := none
                 sl_type := "close", target_type := "close", exit_h := eh
                 exit_m := em } e dflt (pre ++ c :: rest)
        = (c.close, fmtTime c.hour c.minute, "sl_close")) ∧
    (∀ (e sl : ℚ) (eh em : Nat) (dflt : String) (pre : List Row) (c : Row)
        (rest : List Row),
      (∀ d ∈ pre, (d.hour < eh ∨ (d.hour = eh ∧ d.minute < em)) ∧
        sl < d.low) →
      (c.hour < eh ∨ (c.hour = eh ∧ c.minute < em)) →
      c.low ≤ sl →
      scanExit { action := "BUY", sl_price := some sl, target_price := none
                 sl_type := "hard", target_type := "hard", exit_h := eh
                 exit_m := em } e dflt (pre ++ c :: rest)
        = (sl, fmtTime c.hour c.minute, "sl_hard")) ∧
    (∀ (e sl : ℚ) (eh em : Nat) (dflt : String) (pre : List Row) (c : Row)
        (rest : List Row),
      (∀ d ∈ pre, (d.hour < eh ∨ (d.hour = eh ∧ d.minute < em)) ∧
        sl < d.close) →
      (c.hour < eh ∨ (c.hour = eh ∧ c.minute < em)) →
      c.close ≤ sl →
      scanExit { action := "BUY", sl_price := some sl, target_price := none
                 sl_type := "close", target_type := "close", exit_h := eh
                 exit_m := em } e dflt (pre ++ c :: rest)
        = (c.close, fmtTime c.hour c.minute, "sl_close")) := by
  refine ⟨?_, ?_, ?_, ?_, ?_⟩
  · intro e s hs
    constructor <;> simp [slPriceFor, hs]
  · intro e sl eh em dflt pre c rest hpre hc hh
    rw [scanExit_append_none _ _ _ _ _ (fun d hd =>
      checkCandle_none_of_safe "SELL" "hard" sl eh em d (hpre d hd).1
        ⟨fun _ => ⟨fun _ => (hpre d hd).2, fun hcl => absurd hcl (by decide)⟩,
         fun hne => absurd rfl hne⟩)]
    simp only [scanExit]
    rw [checkCandle_not_time _ _ hc]
    simp [slCheck, hh]
  · intro e sl eh em dflt pre c rest hpre hc hh
    rw [scanExit_append_none _ _ _ _ _ (fun d hd =>
      checkCandle_none_of_safe "SELL" "close" sl eh em d (hpre d hd).1
        ⟨fun _ => ⟨fun hcl => absurd hcl (by decide), fun _ => (hpre d hd).2⟩,
         fun hne => absurd rfl hne⟩)]
    simp only [scanExit]
    rw [checkCandle_not_time _ _ hc]
    simp [slCheck, hh]
  · intro e sl eh em dflt pre c rest hpre hc hh
    rw [scanExit_append_none _ _ _ _ _ (fun d hd =>
      checkCandle_none_of_safe "BUY" "hard" sl eh em d (hpre d hd).1
        ⟨fun ha => absurd ha (by decide),
         fun _ => ⟨fun _ => (hpre d hd).2, fun hcl => absurd hcl (by decide)⟩⟩)]
    simp only [scanExit]
    rw [checkCandle_not_time _ _ hc]
    simp [slCheck, hh]
  · intro e sl eh em dflt pre c rest hpre hc hh
    rw [scanExit_append_none _ _ _ _ _ (fun d hd =>
      checkCandle_none_of_safe "BUY" "close" sl eh em d (hpre d hd).1
        ⟨fun ha => absurd ha (by decide),
         fun _ => ⟨fun hcl => absurd hcl (by decide), fun _ => (hpre d hd).2⟩⟩)]
    simp only [scanExit]
    rw [checkCandle_not_time _ _ hc]
    simp [slCheck, hh]

/-- Witness for C1, at the spec's numbers: entry 100, 25% stop on a sell
gives stop 125; a candle with high 130 exits at exactly 125 (`sl_hard`); in
close mode a candle with close 126 and high 124 exits at 126
(`sl_close`). -/
theorem c1_stop_loss_exit_pricing_witness :
    slPriceFor "SELL" 100 25 = some 125 ∧
    scanExit { action := "SELL", sl_price := some 125, target_price := none
               sl_type := "hard", target_type := "hard", exit_h := 15
               exit_m := 15 } 100 "15:15" [candleC1hard]
      = (125, "10:00", "sl_hard") ∧
    scanExit { action := "SELL", sl_price := some 125, target_price := none
               sl_type := "close", target_type := "close", exit_h := 15
               exit_m := 15 } 100 "15:15" [candleC1close]
      = (126, "10:05", "sl_close") := by
  refine ⟨?_, ?_, ?_⟩
  · exact ((c1_stop_loss_exit_pricing.1 100 25 (by norm_num)).1).trans
      (by norm_num)
  · exact (c1_stop_loss_exit_pricing.2.1 100 125 15 15 "15:15" [] candleC1hard
      [] (by simp) (by decide) (by decide)).trans (by decide)
  · exact (c1_stop_loss_exit_pricing.2.2.1 100 125 15 15 "15:15" []
      candleC1close [] (by simp) (by decide) (by decide)).trans (by decide)

/-- C2: exit-check precedence — for any scan parameters, once the scan
reaches a candle whose time is at or after the exit time, the leg exits at
that candle's open with reason `time_exit`, regardless of whether its
high/low/close also breach the stop or target prices. -/
theorem c2_time_exit_precedence (p : ScanParams) (e : ℚ) (dflt : String)
    (pre : List Row) (c : Row) (rest : List Row)
    (hpre : ∀ d ∈ pre, checkCandle p d = none)
    (hc : p.exit_h < c.hour ∨ (c.hour = p.exit_h ∧ p.exit_m ≤ c.minute)) :
    scanExit p e dflt (pre ++ c :: rest)
      = (c.open_, fmtTime c.hour c.minute, "time_exit") := by
  rw [scanExit_append_none _ _ _ _ _ hpre]
  simp only [scanExit]
  unfold checkCandle
  rw [if_pos hc]

/-- Witness for C2: on a candle at 15:20 whose high breaches the stop (125)
and whose low breaches the target (80), the scan still exits at the candle
open 90 with reason `time_exit`. -/
theorem c2_time_exit_precedence_witness :
    scanExit pC2 100 "15:15" [candleC2] = (90, "15:20", "time_exit") ∧
    (125 : ℚ) ≤ candleC2.high ∧ candleC2.low ≤ 80 := by
  refine ⟨?_, by decide, by decide⟩
  exact (c2_time_exit_precedence pC2 100 "15:15" [] candleC2 [] (by simp)
    (by decide)).trans (by decide)


/-- Counterexample to C3 as stated: with the default cost configuration
(flat ₹20 per order), quantity 0 and premiums 0 still produce a non-zero
brokerage component (₹40 = 20 × 2 orders), so not every component of the
breakdown is zero. -/
theorem c3_zero_input_counterexample :
    (CostModel.calculate defaultCostConfig 20240615 "SELL" 0 0 0 1).brokerage
        = 40 ∧
    ¬ (CostModel.calculate defaultCostConfig 20240615 "SELL" 0 0 0 1).brokerage
        = 0 := by
  norm_num [CostModel.calculate, defaultCostConfig]

/-- C3 (amended): `CostModel.calculate` on quantity 0 and premiums 0 returns
normally for every configuration, date, action and leg count, and every
turnover-proportional component (slippage, stt, exchange charges, sebi fee,
stamp duty) is zero; the brokerage stays at the flat per-order fee times the
2·leg_count orders, GST is levied on it, and the total reduces to
brokerage + gst. -/
theorem c3_degenerate_input_breakdown (cfg : CostConfig) (trade_date : Nat)
    (action : String) (num_legs : ℕ) :
    (CostModel.calculate cfg trade_date action 0 0 0 num_legs).slippage = 0 ∧
    (CostModel.calculate cfg trade_date action 0 0 0 num_legs).stt = 0 ∧
    (CostModel.calculate cfg trade_date action 0 0 0 num_legs).exchange_charges
        = 0 ∧
    (CostModel.calculate cfg trade_date action 0 0 0 num_legs).sebi_fee = 0 ∧
    (CostModel.calculate cfg trade_date action 0 0 0 num_legs).stamp_duty
        = 0 ∧
    (CostModel.calculate cfg trade_date action 0 0 0 num_legs).brokerage
        = cfg.brokerage_per_order * ((num_legs * 2 : ℕ) : ℚ) ∧
    (CostModel.calculate cfg trade_date action 0 0 0 num_legs).total
        = (CostModel.calculate cfg trade_date action 0 0 0 num_legs).brokerage
            + (CostModel.calculate cfg trade_date action 0 0 0 num_legs).gst := by
  refine ⟨?_, ?_, ?_, ?_, ?_, ?_, ?_⟩ <;>
    by_cases h : cfg.use_taxes <;>
    simp [CostModel.calculate, TradeCost.total, h, ite_self]

/-- Counterexample to C4 as stated: for trade date 2019-06-15 no schedule
entry has effective-from ≤ the trade date (the spec-side selector returns
nothing), yet `get_tax_rates` still returns the first entry, whose
effective-from (2020-01-01) exceeds the trade date — so the returned entry
is not "the last schedule entry whose effective-from date is ≤ the trade
date". -/
theorem c4_pre_schedule_counterexample :
    select_schedule 20190615 = none ∧
    get_tax_rates 20190615 = schedule2020 ∧
    ¬ (get_tax_rates 20190615).effective_from ≤ 20190615 := by
  refine ⟨?_, ?_, ?_⟩
  · simp [select_schedule, TAX_SCHEDULES, schedule2020, schedule2024]
  · simp [get_tax_rates, TAX_SCHEDULES, schedule2020, schedule2024]
  · simp [get_tax_rates, TAX_SCHEDULES, schedule2020, schedule2024]

/-- C4 (amended): for every trade date on or after the first entry's
effective-from date (2020-01-01), `get_tax_rates` returns exactly the last
schedule entry whose effective-from is ≤ the trade date (earlier dates fall
back to the first entry); in particular 2024-09-30 selects the pre-Oct-2024
schedule (sell rate 0.0625%, buy rate 0) and 2024-10-01 the new schedule
(sell and buy rates both 0.1%). -/
theorem c4_tax_schedule_selection :
    (∀ trade_date : Nat, 20200101 ≤ trade_date →
      select_schedule trade_date = some (get_tax_rates trade_date)) ∧
    get_tax_rates 20240930 = schedule2020 ∧
    schedule2020.stt_sell_pct = 0.0625 ∧
    schedule2020.stt_buy_pct = 0 ∧
    get_tax_rates 20241001 = schedule2024 ∧
    schedule2024.stt_sell_pct = 0.1 ∧
    schedule2024.stt_buy_pct = 0.1 := by
  refine ⟨?_, ?_, by norm_num [schedule2020], by norm_num [schedule2020],
    ?_, by norm_num [schedule2024], by norm_num [schedule2024]⟩
  · intro d hd
    by_cases h2 : 20241001 ≤ d
    · simp [select_schedule, get_tax_rates, TAX_SCHEDULES, schedule2020,
        schedule2024, hd, h2]
    · simp [select_schedule, get_tax_rates, TAX_SCHEDULES, schedule2020,
        schedule2024, hd, h2]
  · simp [get_tax_rates, TAX_SCHEDULES, schedule2020, schedule2024]
  · simp [get_tax_rates, TAX_SCHEDULES, schedule2020, schedule2024]

/-- Witness for C4 at the claim's own date: on 2024-09-30 `get_tax_rates`
agrees with the spec-side last-applicable selector. -/
theorem c4_tax_schedule_selection_witness :
    select_schedule 20240930 = some (get_tax_rates 20240930) :=
  c4_tax_schedule_selection.1 20240930 (by norm_num)

/-- C5: round-trip cost and P&L arithmetic. Selling at entry premium 150 and
exiting at 100 with quantity 25, one leg, slippage 0.5 points and flat
brokerage 20 per order yields slippage 0.5×25×1×2 = 25, brokerage 20×2 = 40,
gross P&L (150−100)×25 = 1250, and net P&L equal to gross minus the
breakdown's total. -/
theorem c5_round_trip_arithmetic :
    tradeC5.entry_price = 150 ∧
    tradeC5.exit_price = 100 ∧
    tradeC5.gross_pnl = 1250 ∧
    tradeC5.cost.map TradeCost.slippage = some 25 ∧
    tradeC5.cost.map TradeCost.brokerage = some 40 ∧
    tradeC5.net_pnl = tradeC5.gross_pnl
        - (tradeC5.cost.map TradeCost.total).getD 0 := by
  norm_num [tradeC5, execute_leg, dayC5, rowC5entry, rowC5exit, legC5, cfgC5,
    sortByT, insertByT, Row.tmin, slPriceFor, targetPriceFor, scanExit,
    checkCandle, slCheck, targetCheck, grossPnl, CostModel.calculate,
    defaultCostConfig, TradeCost.total, fmtTime, pad2]

/-- Counterexample to C6 as stated: on a day whose data is empty — so strike
"ATM+5" certainly has zero rows — the run body passes over the day silently:
no trade but also no skip record at all is produced, so no record whose
reason contains "Missing strikes" exists for that day. -/
theorem c6_empty_day_counterexample :
    process_day [] cfgC6 20240115 3 defaultCostConfig = ([], []) := by
  rfl

/-- C6 (amended): for every day with non-empty data that passes the DTE and
VIX day filters, if some leg's strike has zero rows in the day's data, the
day produces no trades and exactly one skip record for that date, whose
reason starts with "Missing strikes". -/
theorem c6_missing_strike_skip (day_data : List Row)
    (config : StrategyConfig) (trade_date : Nat) (dte : ℤ)
    (ccfg : CostConfig)
    (hne : day_data ≠ [])
    (hdte : dteFilterSkips config dte = false)
    (hvix : vixFilterSkips config day_data = false)
    (hmiss : ∃ leg ∈ config.legs, ∀ r ∈ day_data, r.strike_rel ≠ leg.strike) :
    (process_day day_data config trade_date dte ccfg).1 = [] ∧
    ∃ rest, (process_day day_data config trade_date dte ccfg).2
        = [{ date := trade_date, reason := "Missing strikes: " ++ rest
             leg := none }] := by
  obtain ⟨leg, hleg, hnorow⟩ := hmiss
  have hmem : leg.strike ∈ (config.legs.map (fun l => l.strike)).dedup :=
    List.mem_dedup.mpr (List.mem_map_of_mem _ hleg)
  have havail : leg.strike ∉ day_data.map (fun r => r.strike_rel) := by
    simp only [List.mem_map]
    rintro ⟨r, hr, heq⟩
    exact hnorow r hr heq
  have hfilter : leg.strike ∈
      ((config.legs.map (fun l => l.strike)).dedup).filter
        (fun s => ¬ (day_data.map (fun r => r.strike_rel)).contains s) := by
    refine List.mem_filter.mpr ⟨hmem, ?_⟩
    simp [havail]
  have hne2 := List.ne_nil_of_mem hfilter
  have hcb : check_data_boundary day_data config =
      (false, "Missing strikes: " ++ String.intercalate ", "
        (((config.legs.map (fun l => l.strike)).dedup).filter
          (fun s => ¬ (day_data.map (fun r => r.strike_rel)).contains s))) := by
    unfold check_data_boundary
    rw [if_pos hne2]
  refine ⟨?_, ⟨String.intercalate ", "
      (((config.legs.map (fun l => l.strike)).dedup).filter
        (fun s => ¬ (day_data.map (fun r => r.strike_rel)).contains s)), ?_⟩⟩
  · simp [process_day, List.isEmpty_iff, hne, hdte, hvix, hcb]
  · simp [process_day, List.isEmpty_iff, hne, hdte, hvix, hcb]

/-- Witness for C6: a one-row day holding only strike "ATM" (day VIX 15,
DTE 3), under a strategy requiring "ATM+5" whose configured DTE filter
(1..10) and VIX filter (10..20) both pass, yields zero trades and exactly
one skip record whose reason starts with "Missing strikes". -/
theorem c6_missing_strike_skip_witness :
    (process_day [rowC6] cfgC6b 20240115 3 defaultCostConfig).1 = [] ∧
    ∃ rest, (process_day [rowC6] cfgC6b 20240115 3 defaultCostConfig).2
        = [{ date := 20240115, reason := "Missing strikes: " ++ rest
             leg := none }] :=
  c6_missing_strike_skip [rowC6] cfgC6b 20240115 3 defaultCostConfig
    (by simp) (by decide) (by decide)
    ⟨{ action := "SELL", strike := "ATM+5", option_type := "CE" },
      by decide, by decide⟩

/-- C7: in every `StrategyContext` state reachable by any sequence of
`open_position`, `close_position`, `close_all` and `update_prices` calls,
`get_total_pnl` equals `get_realized_pnl + get_unrealized_pnl` exactly. -/
theorem c7_pnl_invariant (s : StrategyContext) (_h : Reachable s) :
    s.get_total_pnl = s.get_realized_pnl + s.get_unrealized_pnl := rfl

/-- Witness for C7 at a concrete reachable state. -/
theorem c7_pnl_invariant_witness :
    ctxC7.get_total_pnl = ctxC7.get_realized_pnl + ctxC7.get_unrealized_pnl :=
  c7_pnl_invariant ctxC7
    (Reachable.closePosStep 1 (some 90) "manual" none
      (Reachable.openPos "ATM" "CE" "SELL" 1 "" (some 100) none
        (Reachable.init [] 20240115 3 25 defaultCostConfig (9, 20)
          (15, 15))))

/-- C8 failing-input evaluation: `_collect_day_result` force-closes the
still-open position with reason `time_exit`, but at the open (50) of the
15:05 candle — chosen because its HOUR equals the exit hour — although the
first candle at or after the configured exit time 15:15 opens at 60. After
finalization no position remains open and the trade appears in the day's
trade list. -/
theorem c8_hour_only_exit_divergence :
    (ctxC8.collect_day_result.1.trades.map
        (fun t => (t.exit_price, t.exit_reason, t.exit_time)))
      = [(50, "time_exit", "15:15")] ∧
    (((ctxC8.get_candles "ATM" "CE").filter
        (fun r => 15 * 60 + 15 ≤ r.tmin)).head?.map (fun r => r.open_))
      = some 60 ∧
    ctxC8.collect_day_result.2.positions = [] := by
  refine ⟨?_, ?_, ?_⟩ <;>
    norm_num [ctxC8, rowC8pre, rowC8a, rowC8b, mkContext,
      StrategyContext.collect_day_result,
      StrategyContext.force_close_open_positions, forceCloseExitPrice,
      StrategyContext.close_position, closeInList, closePos,
      StrategyContext.open_position, StrategyContext.get_option_price_at,
      StrategyContext.get_candles, recordOfPosition, sortByT, insertByT,
      Row.tmin, fmtTime, pad2] <;>
    decide

/-- First-match lookup distributes over list append. -/
lemma assocFind_append (k : Nat) (l1 l2 : List (Nat × List DRow)) :
    assocFind k (l1 ++ l2) =
      match assocFind k l1 with
      | some v => some v
      | none => assocFind k l2 := by
  induction l1 with
  | nil => rfl
  | cons kv rest ih =>
    obtain ⟨k2, v⟩ := kv
    by_cases h : k2 = k
    · simp [assocFind, h]
    · simp [assocFind, h, ih]

/-- A cache hit in `_load_file` returns the cached frame, reads nothing and
leaves the state unchanged. -/
lemma load_file_hit {fs : Nat → List DRow} {st : LoaderState} {f : Nat}
    {df : List DRow} (h : assocFind f st.file_cache = some df) :
    load_file fs st f = (df, st, []) := by
  unfold load_file
  rw [h]

/-- A cache miss in `_load_file` reads the file once and appends it to the
file cache. -/
lemma load_file_miss {fs : Nat → List DRow} {st : LoaderState} {f : Nat}
    (h : assocFind f st.file_cache = none) :
    load_file fs st f =
      (fs f, { st with file_cache := st.file_cache ++ [(f, fs f)] }, [f]) := by
  unfold load_file
  rw [h]

/-- When the covering-file loop finds no data for the date, it leaves the
day cache and file index unchanged, only grows the file cache, and a rerun
of the same loop from the resulting state again finds nothing — without
reading a single file. -/
lemma loadDayLoop_none (fs : Nat → List DRow) (d : Nat) :
    ∀ (idx : List (Nat × Nat × Nat)) (st : LoaderState) (reads0 : List Nat)
      (out : LoadOutcome),
      loadDayLoop fs d st reads0 idx = out → out.result = none →
      out.state.day_cache = st.day_cache ∧
      out.state.file_index = st.file_index ∧
      (∀ k v, assocFind k st.file_cache = some v →
        assocFind k out.state.file_cache = some v) ∧
      (∀ reads1 : List Nat, loadDayLoop fs d out.state reads1 idx =
        { result := none, state := out.state, files_read := reads1 }) := by
  intro idx
  induction idx with
  | nil =>
    intro st reads0 out heq _hres
    subst heq
    exact ⟨rfl, rfl, fun k v hv => hv, fun reads1 => rfl⟩
  | cons entry rest ih =>
    intro st reads0 out heq hres
    obtain ⟨lo, hi, f⟩ := entry
    subst heq
    by_cases hcov : lo ≤ d ∧ d ≤ hi
    · rcases hfc : assocFind f st.file_cache with _ | df
      · -- file-cache miss: the file is read once and cached
        simp only [loadDayLoop, if_pos hcov, load_file_miss hfc] at hres ⊢
        by_cases hemp : ((fs f).filter (fun r => r.date = d)).isEmpty
        · simp only [if_pos hemp] at hres ⊢
          have H := ih { st with file_cache := st.file_cache ++ [(f, fs f)] }
            (reads0 ++ [f]) _ rfl hres
          have hfout : assocFind f
              (loadDayLoop fs d
                { st with file_cache := st.file_cache ++ [(f, fs f)] }
                (reads0 ++ [f]) rest).state.file_cache = some (fs f) := by
            refine H.2.2.1 f (fs f) ?_
            rw [assocFind_append, hfc]
            simp [assocFind]
          refine ⟨H.1, H.2.1, ?_, ?_⟩
          · intro k v hv
            refine H.2.2.1 k v ?_
            rw [assocFind_append, hv]
          · intro reads1
            simp only [loadDayLoop, if_pos hcov, load_file_hit hfout,
              if_pos hemp, List.append_nil]
            exact H.2.2.2 reads1
        · simp only [if_neg hemp] at hres
          simp at hres
      · -- file-cache hit: the cached frame is used
        simp only [loadDayLoop, if_pos hcov, load_file_hit hfc] at hres ⊢
        by_cases hemp : (df.filter (fun r => r.date = d)).isEmpty
        · simp only [if_pos hemp, List.append_nil] at hres ⊢
          have H := ih st reads0 _ rfl hres
          refine ⟨H.1, H.2.1, H.2.2.1, ?_⟩
          intro reads1
          have hfout : assocFind f
              (loadDayLoop fs d st reads0 rest).state.file_cache
                = some df := H.2.2.1 f df hfc
          simp only [loadDayLoop, if_pos hcov, load_file_hit hfout,
            if_pos hemp, List.append_nil]
          exact H.2.2.2 reads1
        · simp only [if_neg hemp] at hres
          simp at hres
    · simp only [loadDayLoop, if_neg hcov] at hres ⊢
      have H := ih st reads0 _ rfl hres
      refine ⟨H.1, H.2.1, H.2.2.1, ?_⟩
      intro reads1
      exact H.2.2.2 reads1

/-- When the covering-file loop returns a day slice, that slice has been
appended to the day cache. -/
lemma loadDayLoop_some (fs : Nat → List DRow) (d : Nat) :
    ∀ (idx : List (Nat × Nat × Nat)) (st : LoaderState) (reads0 : List Nat)
      (out : LoadOutcome) (v : List DRow),
      loadDayLoop fs d st reads0 idx = out → out.result = some v →
      out.state.day_cache = st.day_cache ++ [(d, v)] := by
  intro idx
  induction idx with
  | nil =>
    intro st reads0 out v heq hres
    subst heq
    simp [loadDayLoop] at hres
  | cons entry rest ih =>
    intro st reads0 out v heq hres
    obtain ⟨lo, hi, f⟩ := entry
    subst heq
    by_cases hcov : lo ≤ d ∧ d ≤ hi
    · rcases hfc : assocFind f st.file_cache with _ | df
      · simp only [loadDayLoop, if_pos hcov, load_file_miss hfc] at hres ⊢
        by_cases hemp : ((fs f).filter (fun r => r.date = d)).isEmpty
        · simp only [if_pos hemp] at hres ⊢
          exact ih { st with file_cache := st.file_cache ++ [(f, fs f)] }
            (reads0 ++ [f]) _ v rfl hres
        · simp only [if_neg hemp] at hres ⊢
          obtain rfl : sortByTD ((fs f).filter (fun r => r.date = d)) = v := by
            simpa using hres
          rfl
      · simp only [loadDayLoop, if_pos hcov, load_file_hit hfc] at hres ⊢
        by_cases hemp : (df.filter (fun r => r.date = d)).isEmpty
        · simp only [if_pos hemp] at hres ⊢
          exact ih _ _ _ v rfl hres
        · simp only [if_neg hemp] at hres ⊢
          obtain rfl : sortByTD (df.filter (fun r => r.date = d)) = v := by
            simpa using hres
          rfl
    · simp only [loadDayLoop, if_neg hcov] at hres ⊢
      exact ih _ _ _ v rfl hres

/-- A day-cache hit in `load_day` answers from the cache. -/
lemma load_day_hit {fs : Nat → List DRow} {st : LoaderState} {d : Nat}
    {df : List DRow} (h : assocFind d st.day_cache = some df) :
    load_day fs st d = { result := some df, state := st, files_read := [] } := by
  unfold load_day
  rw [h]

/-- A day-cache miss in `load_day` walks the file index. -/
lemma load_day_miss {fs : Nat → List DRow} {st : LoaderState} {d : Nat}
    (h : assocFind d st.day_cache = none) :
    load_day fs st d = loadDayLoop fs d st [] st.file_index := by
  unfold load_day
  rw [h]

/-- C9: cache idempotence of `DataLoader.load_day`. For every archive, every
loader state and every date, calling `load_day` twice (no intervening
`clear_cache`) returns the identical result on the second call — including
the no-data case — and the second call reads no source file at all. -/
theorem c9_load_day_cache_idempotent (fs : Nat → List DRow)
    (st : LoaderState) (d : Nat) :
    (load_day fs (load_day fs st d).state d).result
        = (load_day fs st d).result ∧
    (load_day fs (load_day fs st d).state d).files_read = [] := by
  rcases h1 : assocFind d st.day_cache with _ | df
  · rw [load_day_miss h1]
    rcases hres : (loadDayLoop fs d st [] st.file_index).result with _ | v
    · have H := loadDayLoop_none fs d st.file_index st []
        (loadDayLoop fs d st [] st.file_index) rfl hres
      have hd2 : assocFind d
          (loadDayLoop fs d st [] st.file_index).state.day_cache = none := by
        rw [H.1]
        exact h1
      rw [load_day_miss hd2, H.2.1, H.2.2.2 []]
      exact ⟨rfl, rfl⟩
    · have H := loadDayLoop_some fs d st.file_index st []
        (loadDayLoop fs d st [] st.file_index) v rfl hres
      have hd2 : assocFind d
          (loadDayLoop fs d st [] st.file_index).state.day_cache
            = some v := by
        rw [H, assocFind_append, h1]
        simp [assocFind]
      rw [load_day_hit hd2]
      exact ⟨rfl, rfl⟩
  · rw [load_day_hit h1]
    rw [show ({ result := some df, state := st, files_read := [] }
        : LoadOutcome).state = st from rfl]
    rw [load_day_hit h1]
    exact ⟨rfl, rfl⟩

/-- The closed copy produced by `closePos` satisfies the net-versus-gross
accounting. -/
lemma closePos_accounting (cc : CostConfig) (td : Nat) (pos : Position)
    (pr : Option ℚ) (rs : String) (at_ : Option String) :
    ∃ c, (closePos cc td pos pr rs at_).cost = some c ∧
      (closePos cc td pos pr rs at_).net_pnl
        = (closePos cc td pos pr rs at_).gross_pnl - c.total :=
  ⟨_, rfl, rfl⟩

/-- What a successful `closeInList` returns: the remaining list is a
sublist of the original, and the closed copy is `closePos` of some member. -/
lemma closeInList_spec (cc : CostConfig) (td : Nat) (pid : Nat)
    (pr : Option ℚ) (rs : String) (at_ : Option String) :
    ∀ (l l' : List Position) (c : Position),
      closeInList cc td pid pr rs at_ l = some (l', c) →
      (∀ p ∈ l', p ∈ l) ∧
      ∃ pos, pos ∈ l ∧ c = closePos cc td pos pr rs at_ := by
  intro l
  induction l with
  | nil =>
    intro l' c h
    simp [closeInList] at h
  | cons p rest ih =>
    intro l' c h
    by_cases hc : p.id = pid ∧ p.is_open
    · simp only [closeInList, if_pos hc, Option.some.injEq, Prod.mk.injEq]
        at h
      refine ⟨fun q hq => ?_, ⟨p, List.mem_cons_self p rest, h.2.symm⟩⟩
      rw [← h.1] at hq
      exact List.mem_cons_of_mem p hq
    · simp only [closeInList, if_neg hc] at h
      rcases hrec : closeInList cc td pid pr rs at_ rest with _ | lr
      · rw [hrec] at h
        simp at h
      · rw [hrec] at h
        simp only [Option.map_some', Option.some.injEq] at h
        obtain ⟨hl, hcgoal⟩ := Prod.mk.injEq .. ▸ h
        have H := ih lr.1 lr.2 (by rw [hrec])
        constructor
        · intro q hq
          rw [← hl] at hq
          rcases List.mem_cons.mp hq with hq1 | hq2
          · exact hq1 ▸ List.mem_cons_self p rest
          · exact List.mem_cons_of_mem p (H.1 q hq2)
        · obtain ⟨pos, hpos, hceq⟩ := H.2
          exact ⟨pos, List.mem_cons_of_mem p hpos, hcgoal ▸ hceq⟩

/-- `close_position` preserves the openness of the open list and the
accounting of the closed list. -/
lemma close_position_preserves (s : StrategyContext) (pid : Nat)
    (pr : Option ℚ) (rs : String) (at_ : Option String)
    (h : OpenOK s.positions ∧ ClosedOK s.closed_positions) :
    OpenOK ((s.close_position pid pr rs at_).1).positions ∧
    ClosedOK ((s.close_position pid pr rs at_).1).closed_positions := by
  unfold StrategyContext.close_position
  rcases hm : closeInList s.cost_config s.trade_date pid pr rs at_
      s.positions with _ | lr
  · exact h
  · obtain ⟨hsub, pos, _hpos, hceq⟩ :=
      closeInList_spec s.cost_config s.trade_date pid pr rs at_
        s.positions lr.1 lr.2 (by rw [hm])
    constructor
    · intro q hq
      exact h.1 q (hsub q hq)
    · intro q hq
      rcases List.mem_append.mp hq with hq1 | hq2
      · exact h.2 q hq1
      · have : q = lr.2 := by simpa using hq2
        subst this
        rw [hceq]
        exact closePos_accounting s.cost_config s.trade_date pos pr rs at_

/-- `open_position` never touches the closed list, and either leaves the
open list unchanged (unresolvable price, sentinel −1) or appends one open
position. -/
lemma open_position_state (s : StrategyContext) (strike ot act : String)
    (lots : ℤ) (label : String) (pr? : Option ℚ)
    (at? : Option (Nat × Nat)) :
    ((s.open_position strike ot act lots label pr? at?).1.closed_positions
      = s.closed_positions) ∧
    (((s.open_position strike ot act lots label pr? at?).1.positions
        = s.positions) ∨
      ∃ pos : Position, pos.is_open = true ∧
        (s.open_position strike ot act lots label pr? at?).1.positions
          = s.positions ++ [pos]) := by
  rcases pr? with _ | pr <;> rcases at? with _ | t <;>
    dsimp only [StrategyContext.open_position] <;>
    split <;>
    first
      | exact ⟨rfl, Or.inl rfl⟩
      | exact ⟨rfl, Or.inr ⟨_, rfl, rfl⟩⟩

/-- `close_all` preserves the same invariants: it is a fold of
`close_position` over the open ids. -/
lemma close_all_preserves (s : StrategyContext) (rs : String)
    (pm : List (Nat × ℚ)) (at_ : Option String)
    (h : OpenOK s.positions ∧ ClosedOK s.closed_positions) :
    OpenOK (s.close_all rs pm at_).positions ∧
    ClosedOK (s.close_all rs pm at_).closed_positions := by
  unfold StrategyContext.close_all
  generalize ((s.positions.filter (fun p => p.is_open)).map
    (fun p => p.id)) = ids
  induction ids generalizing s with
  | nil => exact h
  | cons i rest ih =>
    simp only [List.foldl_cons]
    exact ih _ (close_position_preserves s i _ rs at_ h)

/-- The invariant of every reachable context: open positions are flagged
open, closed positions carry the cost accounting. -/
lemma reachable_invariant (s : StrategyContext) (h : Reachable s) :
    OpenOK s.positions ∧ ClosedOK s.closed_positions := by
  induction h with
  | init day_data trade_date dte lot_size cost_config et xt =>
    constructor
    · intro p hp
      simp [mkContext] at hp
    · intro p hp
      simp [mkContext] at hp
  | openPos strike option_type action lots label price? at_time? _ ih =>
    obtain ⟨hcl, hpos⟩ := open_position_state _ strike option_type action
      lots label price? at_time?
    constructor
    · rcases hpos with h1 | ⟨pos, hopen, h2⟩
      · rw [h1]
        exact ih.1
      · rw [h2]
        intro p hp
        rcases List.mem_append.mp hp with hp1 | hp2
        · exact ih.1 p hp1
        · have hpp : p = pos := by simpa using hp2
          subst hpp
          exact hopen
    · rw [hcl]
      exact ih.2
  | closePosStep pid pr rs at_ _ ih =>
    exact close_position_preserves _ pid pr rs at_ ih
  | closeAllStep rs pm at_ _ ih =>
    exact close_all_preserves _ rs pm at_ ih
  | updateStep t _ ih =>
    constructor
    · intro p hp
      simp only [StrategyContext.update_prices, List.mem_map] at hp
      obtain ⟨q, hq, hqe⟩ := hp
      subst hqe
      by_cases hqo : q.is_open
      · simp only [hqo, not_true_eq_false, if_false, ite_false]
        split <;> simpa using ih.1 q hq
      · simpa [hqo] using ih.1 q hq
    · exact ih.2

/-- Closing the head of the open list moves exactly it, as a `closePos`
copy, to the end of the closed list. -/
lemma close_position_head (s : StrategyContext) (pos : Position)
    (rest : List Position) (hp : s.positions = pos :: rest)
    (hopen : pos.is_open = true) (pr : Option ℚ) (rs : String)
    (at_ : Option String) :
    (s.close_position pos.id pr rs at_).1
      = { s with
          positions := rest
          closed_positions := s.closed_positions ++
            [closePos s.cost_config s.trade_date pos pr rs at_] } := by
  unfold StrategyContext.close_position
  rw [hp]
  simp [closeInList, hopen]

/-- The force-close fold empties the open list (when all its members are
flagged open) and appends only well-accounted `closePos` copies to the
closed list. -/
lemma force_close_fold (reason : String) :
    ∀ (snapshot : List Position) (s : StrategyContext),
      s.positions = snapshot → OpenOK snapshot →
      (List.foldl
        (fun c pos =>
          if pos.is_open then
            (c.close_position pos.id (some (forceCloseExitPrice c pos))
              reason
              (some (fmtTime c.exit_time_str.1 c.exit_time_str.2))).1
          else c) s snapshot).positions = [] ∧
      ∃ newly : List Position,
        (List.foldl
          (fun c pos =>
            if pos.is_open then
              (c.close_position pos.id (some (forceCloseExitPrice c pos))
                reason
                (some (fmtTime c.exit_time_str.1 c.exit_time_str.2))).1
            else c) s snapshot).closed_positions
          = s.closed_positions ++ newly ∧ ClosedOK newly := by
  intro snapshot
  induction snapshot with
  | nil =>
    intro s hp _ho
    refine ⟨hp, [], by simp, ?_⟩
    intro q hq
    simp at hq
  | cons pos rest ih =>
    intro s hp ho
    have hopen : pos.is_open = true := ho pos (List.mem_cons_self pos rest)
    simp only [List.foldl_cons, if_pos hopen]
    rw [close_position_head s pos rest hp hopen]
    obtain ⟨h1, newly, h2, h3⟩ := ih
      { s with
        positions := rest
        closed_positions := s.closed_positions ++
          [closePos s.cost_config s.trade_date pos
            (some (forceCloseExitPrice s pos)) reason
            (some (fmtTime s.exit_time_str.1 s.exit_time_str.2))] }
      rfl (fun q hq => ho q (List.mem_cons_of_mem pos hq))
    refine ⟨h1,
      closePos s.cost_config s.trade_date pos
        (some (forceCloseExitPrice s pos)) reason
        (some (fmtTime s.exit_time_str.1 s.exit_time_str.2)) :: newly,
      ?_, ?_⟩
    · rw [h2]
      simp
    · intro q hq
      rcases List.mem_cons.mp hq with hq1 | hq2
      · subst hq1
        exact closePos_accounting s.cost_config s.trade_date pos _ reason _
      · exact h3 q hq2

/-- `_force_close_open_positions` on a context whose open list is all
flagged open leaves no position open and appends only well-accounted
closed copies. -/
lemma force_close_spec (s : StrategyContext) (reason : String)
    (hopen : OpenOK s.positions) :
    (s.force_close_open_positions reason).positions = [] ∧
    ∃ newly, (s.force_close_open_positions reason).closed_positions
        = s.closed_positions ++ newly ∧ ClosedOK newly := by
  unfold StrategyContext.force_close_open_positions
  exact force_close_fold reason s.positions s rfl hopen

/-- Over a well-accounted closed list, the gross P&L sum splits exactly into
the net P&L sum plus the cost-total sum. -/
lemma closedOK_sum (l : List Position) (h : ClosedOK l) :
    (l.map (fun p => p.gross_pnl)).sum
      = (l.map (fun p => p.net_pnl)).sum + (l.map posCostTotal).sum := by
  induction l with
  | nil => simp
  | cons p rest ih =>
    obtain ⟨c, hc, hnet⟩ := h p (List.mem_cons_self p rest)
    have hrest : ClosedOK rest := fun q hq => h q (List.mem_cons_of_mem p hq)
    simp only [List.map_cons, List.sum_cons, ih hrest]
    rw [hnet]
    have hct : posCostTotal p = c.total := by simp [posCostTotal, hc]
    rw [hct]
    ring

/-- C10: `get_realized_pnl` sums the GROSS P&L of closed positions, so it
excludes the transaction costs computed by `close_position`. Consequently,
once the day's results are collected, the realized P&L (and the total P&L,
which then equals it, every position being closed) exceeds the sum of
`net_pnl` values in the day's trade records by exactly the sum of their
cost totals — strictly exceeding it whenever that cost sum is positive. -/
theorem c10_realized_pnl_excludes_costs (s : StrategyContext)
    (h : Reachable s) :
    s.collect_day_result.2.get_realized_pnl
        = (s.collect_day_result.1.trades.map (fun t => t.net_pnl)).sum
          + (s.collect_day_result.1.trades.map tradeCostTotal).sum ∧
    s.collect_day_result.2.get_total_pnl
        = s.collect_day_result.2.get_realized_pnl ∧
    (0 < (s.collect_day_result.1.trades.map tradeCostTotal).sum →
      (s.collect_day_result.1.trades.map (fun t => t.net_pnl)).sum
        < s.collect_day_result.2.get_realized_pnl) := by
  obtain ⟨hopen, hclosed⟩ := reachable_invariant s h
  obtain ⟨hnil, newly, hcnew, hoknew⟩ := force_close_spec s "time_exit" hopen
  have h2 : s.collect_day_result.2 = s.force_close_open_positions "time_exit" :=
    rfl
  have h1t : s.collect_day_result.1.trades
      = ((s.force_close_open_positions "time_exit").closed_positions).map
        (recordOfPosition (s.force_close_open_positions "time_exit")) := rfl
  have hclosedOK :
      ClosedOK (s.force_close_open_positions "time_exit").closed_positions := by
    rw [hcnew]
    intro q hq
    rcases List.mem_append.mp hq with hq1 | hq2
    · exact hclosed q hq1
    · exact hoknew q hq2
  have hmapnet : (s.collect_day_result.1.trades.map (fun t => t.net_pnl))
      = ((s.force_close_open_positions "time_exit").closed_positions).map
        (fun p => p.net_pnl) := by
    rw [h1t, List.map_map]
    rfl
  have hmapcost : (s.collect_day_result.1.trades.map tradeCostTotal)
      = ((s.force_close_open_positions "time_exit").closed_positions).map
        posCostTotal := by
    rw [h1t, List.map_map]
    rfl
  have hreal : s.collect_day_result.2.get_realized_pnl
      = (((s.force_close_open_positions "time_exit").closed_positions).map
        (fun p => p.gross_pnl)).sum := rfl
  have hmain : s.collect_day_result.2.get_realized_pnl
      = (s.collect_day_result.1.trades.map (fun t => t.net_pnl)).sum
        + (s.collect_day_result.1.trades.map tradeCostTotal).sum := by
    rw [hreal, hmapnet, hmapcost]
    exact closedOK_sum _ hclosedOK
  refine ⟨hmain, ?_, ?_⟩
  · rw [h2]
    unfold StrategyContext.get_total_pnl StrategyContext.get_realized_pnl
    rw [hnil]
    simp
  · intro hpos
    rw [hmain]
    linarith

/-- `ctxC10` is reachable by SDK operations. -/
lemma ctxC10_reachable : Reachable ctxC10 :=
  Reachable.closePosStep 1 (some 90) "manual" none
    (Reachable.openPos "ATM" "PE" "SELL" 1 "" (some 100) none
      (Reachable.init [] 20240610 2 25 defaultCostConfig (9, 20) (15, 15)))

/-- Witness for C10 at `ctxC10`: the closed trade carries a positive cost
total, so the realized (= total) P&L strictly exceeds the trade records'
net P&L sum, by exactly the cost sum. -/
theorem c10_realized_pnl_excludes_costs_witness :
    ctxC10.collect_day_result.2.get_realized_pnl
        = (ctxC10.collect_day_result.1.trades.map (fun t => t.net_pnl)).sum
          + (ctxC10.collect_day_result.1.trades.map tradeCostTotal).sum ∧
    ctxC10.collect_day_result.2.get_total_pnl
        = ctxC10.collect_day_result.2.get_realized_pnl ∧
    (ctxC10.collect_day_result.1.trades.map (fun t => t.net_pnl)).sum
        < ctxC10.collect_day_result.2.get_realized_pnl := by
  have h := c10_realized_pnl_excludes_costs ctxC10 ctxC10_reachable
  refine ⟨h.1, h.2.1, h.2.2 ?_⟩
  norm_num [ctxC10, mkContext, StrategyContext.open_position,
    StrategyContext.close_position, closeInList, closePos,
    StrategyContext.get_option_price_at, StrategyContext.get_candles,
    StrategyContext.collect_day_result,
    StrategyContext.force_close_open_positions, recordOfPosition,
    tradeCostTotal, CostModel.calculate, get_tax_rates, TAX_SCHEDULES,
    schedule2020, schedule2024, defaultCostConfig, TradeCost.total,
    sortByT, insertByT, fmtTime, pad2, Row.tmin]
  rw [if_neg (by decide : ¬("SELL" = "BUY"))]
  norm_num

/-- Witness for C3 (amended) at the default configuration with one leg. -/
theorem c3_degenerate_input_breakdown_witness :
    (CostModel.calculate defaultCostConfig 20240615 "SELL" 0 0 0 1).slippage
        = 0 ∧
    (CostModel.calculate defaultCostConfig 20240615 "SELL" 0 0 0 1).stt = 0 ∧
    (CostModel.calculate defaultCostConfig 20240615 "SELL" 0 0 0
        1).exchange_charges = 0 ∧
    (CostModel.calculate defaultCostConfig 20240615 "SELL" 0 0 0 1).sebi_fee
        = 0 ∧
    (CostModel.calculate defaultCostConfig 20240615 "SELL" 0 0 0
        1).stamp_duty = 0 ∧
    (CostModel.calculate defaultCostConfig 20240615 "SELL" 0 0 0 1).brokerage
        = defaultCostConfig.brokerage_per_order * ((1 * 2 : ℕ) : ℚ) ∧
    (CostModel.calculate defaultCostConfig 20240615 "SELL" 0 0 0 1).total
        = (CostModel.calculate defaultCostConfig 20240615 "SELL" 0 0 0
            1).brokerage
          + (CostModel.calculate defaultCostConfig 20240615 "SELL" 0 0 0
              1).gst :=
  c3_degenerate_input_breakdown defaultCostConfig 20240615 "SELL" 1

/-- Witness for C9 on a concrete archive, state and date. -/
theorem c9_load_day_cache_idempotent_witness :
    (load_day fsC9 (load_day fsC9 stC9 20240102).state 20240102).result
        = (load_day fsC9 stC9 20240102).result ∧
    (load_day fsC9 (load_day fsC9 stC9 20240102).state 20240102).files_read
        = [] :=
  c9_load_day_cache_idempotent fsC9 stC9 20240102
